import Mathlib

/-!
Verification development for the bunkr-client Transfer Engine
(`src/core/uploader.rs`, `src/core/downloader.rs`).

The Rust code is shallowly embedded: machine integers (`u64`, `i64`, bytes)
become `Nat`/`Int`, `Result`/`anyhow::Error` becomes `Except String`,
network and filesystem effects become explicit oracles passed as function
arguments, and the asynchronous loops become executable structural
recursions.  Every definition follows the corresponding Rust function
line by line; the source location is recorded in its doc comment.
-/

namespace BunkrClient

/-- An HTTP response as seen by `retry_with_backoff` (`reqwest::Response`):
only the status code and the body matter for the retry layer. -/
structure HttpResponse where
  status : Nat
  body : String
deriving DecidableEq

deriving instance DecidableEq for Except

/-- Observable outcome of one run of `retry_with_backoff`
(`src/core/uploader.rs:28-48`): the returned value, the number of
invocations of the wrapped operation, and the list of back-off sleeps
performed, in order, in nanoseconds (`tokio::time::Duration`). -/
structure RetryResult (ε ρ : Type) where
  result : Except ε ρ
  attempts : Nat
  delays : List Nat
deriving DecidableEq

/-- `Duration::MAX` in nanoseconds (`u64::MAX` seconds plus `999_999_999`
nanoseconds): the saturation bound of `Duration::saturating_mul`. -/
def durationMaxNanos : Nat := 18446744073709551615 * 1000000000 + 999999999

/-- `delay.saturating_mul(2)` on a `Duration` measured in nanoseconds
(`src/core/uploader.rs:43`). -/
def satMul2 (d : Nat) : Nat := min (d * 2) durationMaxNanos

/-- One nanosecond count for `Duration::from_secs(1)`
(`src/core/uploader.rs:33`). -/
def oneSecondNanos : Nat := 1000000000

/-- The body of the `for attempt in 0..=max_retries` loop of
`retry_with_backoff` (`src/core/uploader.rs:34-46`).  The wrapped
operation is modelled as a function `f` from the attempt index to the
outcome of that invocation.  `retriesLeft` is `max_retries - attempt`,
so `retriesLeft = 0` is the `attempt == max_retries` case that returns
the error; otherwise the loop sleeps `delay`, doubles it
(saturating), and goes round again.  `acc` accumulates the sleeps
performed so far, most recent first. -/
def retryLoop {ε ρ : Type} (f : Nat → Except ε ρ) (retriesLeft attempt delay : Nat)
    (acc : List Nat) : RetryResult ε ρ :=
  match f attempt with
  | Except.ok r => ⟨Except.ok r, attempt + 1, acc.reverse⟩
  | Except.error e =>
    match retriesLeft with
    | 0 => ⟨Except.error e, attempt + 1, acc.reverse⟩
    | n + 1 => retryLoop f n (attempt + 1) (satMul2 delay) (delay :: acc)

/-- `BunkrUploader::retry_with_backoff` (`src/core/uploader.rs:28-48`):
start at attempt 0 with a 1-second delay and no sleeps performed. -/
def retry_with_backoff {ε ρ : Type} (f : Nat → Except ε ρ) (maxRetries : Nat) :
    RetryResult ε ρ :=
  retryLoop f maxRetries 0 oneSecondNanos []

/-- Which upload path `upload_file` takes for one (sub-)file. -/
inductive UploadPath where
  | single
  | chunked
deriving DecidableEq

/-- The planner branch `if size <= self.chunk_size { upload_single_file }
else { upload_chunked_file }` (`src/core/uploader.rs:192-196`). -/
def planUploadPath (size chunkSize : Nat) : UploadPath :=
  if size ≤ chunkSize then UploadPath.single else UploadPath.chunked

/-- `total_chunks = (total_size as f64 / chunk_size as f64).ceil() as u64`
(`src/core/uploader.rs:328`), i.e. the real-valued ceiling `⌈s / c⌉`,
computed exactly on naturals. -/
def totalChunks (s c : Nat) : Nat := (s + c - 1) / c

/-- One chunk request of `upload_chunked_file`: the `dzchunkindex`, the
`dzchunkbyteoffset` (`index * chunk_size`, `src/core/uploader.rs:357`),
and the number of bytes actually read into the buffer for this chunk
(`bytes_read`, `src/core/uploader.rs:341-355`). -/
structure ChunkTask where
  index : Nat
  offset : Nat
  len : Nat
deriving DecidableEq

/-- The `for i in 0..total_chunks` loop of `upload_chunked_file`
(`src/core/uploader.rs:341-357`) viewed through the chunk requests it
emits.  The file is modelled by its size `s`; the reader position is
threaded through as `pos`.  The inner read loop fills the buffer until
it holds `chunk_size` bytes or the file is exhausted, so one chunk
reads exactly `min c (s - pos)` bytes. -/
def chunkTasksAux (s c : Nat) : Nat → Nat → Nat → List ChunkTask
  | 0, _, _ => []
  | n + 1, i, pos =>
    ⟨i, i * c, min c (s - pos)⟩ :: chunkTasksAux s c n (i + 1) (pos + min c (s - pos))

/-- The full sequence of chunk requests emitted by `upload_chunked_file`
(`src/core/uploader.rs:327-357`) for a file of size `s` and session
chunk size `c`. -/
def chunkTasks (s c : Nat) : List ChunkTask :=
  chunkTasksAux s c (totalChunks s c) 0 0

/-- `FailedUploadInfo` (the `FailureRecord` of the spec): path, message,
file size, optional HTTP status code (`src/core/types.rs:45-51`). -/
structure FailedUploadInfo where
  path : String
  error : String
  file_size : Nat
  status_code : Option Nat
deriving DecidableEq

/-- The per-sub-file loop of `upload_file` (`src/core/uploader.rs:184-201`).
Filesystem and network effects are oracles: `pathExists` models
`Path::exists`, `metadata` models `Path::metadata` (whose `?` aborts the
whole call), `uploadSingle`/`uploadChunked` model the outcomes of
`upload_single_file`/`upload_chunked_file` for a given sub-file path and
size (each may also abort via `?`).  A sub-file that does not exist is
skipped (`continue`); otherwise the branch on `size <= chunk_size`
picks the path, successful URLs are pushed and failures extended, in
order. -/
def uploadFileLoop (pathExists : String → Bool) (metadata : String → Except String Nat)
    (uploadSingle uploadChunked : String → Nat → Except String (Option String × List FailedUploadInfo))
    (chunkSize : Nat) :
    List String → Except String (List String × List FailedUploadInfo)
  | [] => Except.ok ([], [])
  | f :: rest =>
    if pathExists f = false then
      uploadFileLoop pathExists metadata uploadSingle uploadChunked chunkSize rest
    else
      match metadata f with
      | Except.error e => Except.error e
      | Except.ok size =>
        match (if size ≤ chunkSize then uploadSingle f size else uploadChunked f size) with
        | Except.error e => Except.error e
        | Except.ok (urlOpt, fails) =>
          match uploadFileLoop pathExists metadata uploadSingle uploadChunked chunkSize rest with
          | Except.error e => Except.error e
          | Except.ok (urls, allFails) =>
            Except.ok ((match urlOpt with
                        | some u => u :: urls
                        | none => urls), fails ++ allFails)

/-- `BunkrUploader::upload_file` (`src/core/uploader.rs:135-205`), with the
UI updates (compiled out without the `ui` feature) omitted.  If the path
does not exist it returns `Ok((None, [record]))` where the record's size
is `std::fs::metadata(path).map(|m| m.len()).unwrap_or(0)`
(`src/core/uploader.rs:137-154`).  Otherwise `preprocess_file` (an
oracle here; its `?` aborts) yields the sub-files to upload, the loop
above runs, and the result is `Ok((Some(urls.join(",")), file_fails))`
(`src/core/uploader.rs:204`). -/
def uploadFile (pathExists : String → Bool) (preprocess : String → Except String (List String))
    (metadata : String → Except String Nat)
    (uploadSingle uploadChunked : String → Nat → Except String (Option String × List FailedUploadInfo))
    (chunkSize : Nat) (path : String) :
    Except String (Option String × List FailedUploadInfo) :=
  if pathExists path = false then
    Except.ok (none, [{ path := path, error := "File not found: " ++ path,
                        file_size := ((metadata path).toOption.getD 0),
                        status_code := none }])
  else
    match preprocess path with
    | Except.error e => Except.error e
    | Except.ok filesToUpload =>
      match uploadFileLoop pathExists metadata uploadSingle uploadChunked chunkSize filesToUpload with
      | Except.error e => Except.error e
      | Except.ok (urls, fileFails) =>
        Except.ok (some (String.intercalate "," urls), fileFails)

/-- `BunkrUploader::upload_files` (`src/core/uploader.rs:501-553`):
aggregation of the per-file `upload_file` results.  The
`buffer_unordered(batch_size)` stream is determinised to a sequential
fold in submission order; `perFile` stands for the per-file call.  An
`Ok((url, fails))` result pushes the URL, if `Some`, onto `results` and
extends `failures` with `fails`; an `Err` result is silently dropped by
the `if let Ok(..)` at `src/core/uploader.rs:544`. -/
def uploadFiles (perFile : String → Except String (Option String × List FailedUploadInfo))
    (files : List String) : List String × List FailedUploadInfo :=
  files.foldl
    (fun acc f =>
      match perFile f with
      | Except.error _ => acc
      | Except.ok (urlOpt, fails) =>
        ((match urlOpt with
          | some u => acc.1 ++ [u]
          | none => acc.1), acc.2 ++ fails))
    ([], [])

/-- `floor(timestamp / 3600)`: the time bucket of `decrypt_url`, computed in
the source as `((timestamp as f64) / 3600.0).floor() as i64`
(`src/core/downloader.rs:259-260`); on `Int` the floor division `fdiv`
is that value exactly. -/
def bucketOf (timestamp : Int) : Int := Int.fdiv timestamp 3600

/-- `format!("SECRET_KEY_{}", suffix)` (`src/core/downloader.rs:261`). -/
def keyString (suffix : Int) : String := "SECRET_KEY_" ++ toString suffix

/-- `key.as_bytes()` (`src/core/downloader.rs:267`): the ASCII bytes of the
key string. -/
def keyBytes (suffix : Int) : List Nat := (keyString suffix).toList.map Char.toNat

/-- The XOR loop of `decrypt_url` (`src/core/downloader.rs:268-271`):
`output.push(b ^ key_bytes[i % key_bytes.len()])` with `i` the running
byte index. -/
def xorWithKeyAux (key : List Nat) : Nat → List Nat → List Nat
  | _, [] => []
  | i, b :: rest => (b ^^^ key.getD (i % key.length) 0) :: xorWithKeyAux key (i + 1) rest

/-- XOR a byte sequence against a repeating key, starting at index 0
(`src/core/downloader.rs:266-271`). -/
def xorWithKey (bytes key : List Nat) : List Nat := xorWithKeyAux key 0 bytes

/-- Value of one base64 alphabet character (standard alphabet of
`base64::engine::general_purpose::STANDARD`). -/
def base64Val (c : Char) : Option Nat :=
  if 65 ≤ c.toNat ∧ c.toNat ≤ 90 then some (c.toNat - 65)
  else if 97 ≤ c.toNat ∧ c.toNat ≤ 122 then some (c.toNat - 97 + 26)
  else if 48 ≤ c.toNat ∧ c.toNat ≤ 57 then some (c.toNat - 48 + 52)
  else if c = '+' then some 62
  else if c = '/' then some 63
  else none

/-- `general_purpose::STANDARD.decode` (`src/core/downloader.rs:264`):
canonically padded base64.  Input length must be a multiple of four;
`=` padding is allowed only in the final quad; non-zero trailing bits
are rejected (the engine's `decode_allow_trailing_bits` is off). -/
def base64Decode : List Char → Option (List Nat)
  | [] => some []
  | a :: b :: c :: d :: rest =>
    match base64Val a, base64Val b with
    | some va, some vb =>
      if c = '=' then
        if d = '=' ∧ rest = [] then
          if vb % 16 = 0 then some [va * 4 + vb / 16] else none
        else none
      else
        match base64Val c with
        | some vc =>
          if d = '=' then
            if rest = [] then
              if vc % 4 = 0 then some [va * 4 + vb / 16, (vb % 16) * 16 + vc / 4] else none
            else none
          else
            match base64Val d with
            | some vd =>
              match base64Decode rest with
              | some bytes =>
                some ((va * 4 + vb / 16) :: ((vb % 16) * 16 + vc / 4) :: ((vc % 4) * 64 + vd) :: bytes)
              | none => none
            | none => none
        | none => none
    | _, _ => none
  | _ => none

/-- Is `b` a UTF-8 continuation byte (`10xxxxxx`)? -/
def isUtf8Cont (b : Nat) : Bool := 128 ≤ b && b ≤ 191

/-- Lower bound of the first continuation byte for a given lead byte
(UTF-8 shortest-form and surrogate restrictions, as enforced by
`String::from_utf8`). -/
def utf8FirstLo (b : Nat) : Nat := if b = 224 then 160 else if b = 240 then 144 else 128

/-- Upper bound of the first continuation byte for a given lead byte. -/
def utf8FirstHi (b : Nat) : Nat := if b = 237 then 159 else if b = 244 then 143 else 191

/-- `String::from_utf8` (`src/core/downloader.rs:274`) as a decoder from
bytes to Unicode scalar values: `some` exactly on valid UTF-8. -/
def utf8Decode : List Nat → Option (List Nat)
  | [] => some []
  | b :: rest =>
    if b < 128 then
      match utf8Decode rest with
      | some cps => some (b :: cps)
      | none => none
    else if 194 ≤ b ∧ b ≤ 223 then
      match rest with
      | c1 :: rest2 =>
        if isUtf8Cont c1 then
          match utf8Decode rest2 with
          | some cps => some (((b - 192) * 64 + (c1 - 128)) :: cps)
          | none => none
        else none
      | [] => none
    else if 224 ≤ b ∧ b ≤ 239 then
      match rest with
      | c1 :: c2 :: rest2 =>
        if (utf8FirstLo b ≤ c1 ∧ c1 ≤ utf8FirstHi b) ∧ isUtf8Cont c2 then
          match utf8Decode rest2 with
          | some cps => some (((b - 224) * 4096 + (c1 - 128) * 64 + (c2 - 128)) :: cps)
          | none => none
        else none
      | _ => none
    else if 240 ≤ b ∧ b ≤ 244 then
      match rest with
      | c1 :: c2 :: c3 :: rest2 =>
        if (utf8FirstLo b ≤ c1 ∧ c1 ≤ utf8FirstHi b) ∧ (isUtf8Cont c2 ∧ isUtf8Cont c3) then
          match utf8Decode rest2 with
          | some cps =>
            some (((b - 240) * 262144 + (c1 - 128) * 4096 + (c2 - 128) * 64 + (c3 - 128)) :: cps)
          | none => none
        else none
      | _ => none
    else none

/-- `BunkrDownloader::decrypt_url` (`src/core/downloader.rs:257-276`):
derive the key from the timestamp bucket, base64-decode the input, XOR
against the repeating key, and decode the result as UTF-8 (returned as
the list of Unicode scalar values of the `String`).  `none` is the
error case (base64 `?` or the `DecodeError` of `String::from_utf8`). -/
def decrypt_url (encryptedBase64 : List Char) (timestamp : Int) : Option (List Nat) :=
  match base64Decode encryptedBase64 with
  | none => none
  | some bytes => utf8Decode (xorWithKey bytes (keyBytes (bucketOf timestamp)))

/-- Characters the `urlencoding` crate leaves unencoded: ASCII
alphanumerics and `-`, `.`, `_`, `~`. -/
def isUrlUnreservedChar (c : Char) : Bool :=
  c.isAlphanum || c = '-' || c = '.' || c = '_' || c = '~'

/-- UTF-8 encoding of one Unicode scalar value. -/
def utf8EncodeChar (n : Nat) : List Nat :=
  if n < 128 then [n]
  else if n < 2048 then [192 + n / 64, 128 + n % 64]
  else if n < 65536 then [224 + n / 4096, 128 + (n / 64) % 64, 128 + n % 64]
  else [240 + n / 262144, 128 + (n / 4096) % 64, 128 + (n / 64) % 64, 128 + n % 64]

/-- Upper-case hexadecimal digit, as emitted by `urlencoding::encode`. -/
def hexUpper (n : Nat) : Char := if n < 10 then Char.ofNat (48 + n) else Char.ofNat (55 + n)

/-- Percent-encoding of one byte: `%XY` with upper-case hex digits. -/
def percentEncodeByte (b : Nat) : List Char := ['%', hexUpper (b / 16), hexUpper (b % 16)]

/-- `urlencoding::encode` applied to one character. -/
def urlencodeChar (c : Char) : List Char :=
  if isUrlUnreservedChar c then [c]
  else ((utf8EncodeChar c.toNat).map percentEncodeByte).flatten

/-- `urlencoding::encode(&file.original)` (`src/core/downloader.rs:190`). -/
def urlencode (s : List Char) : List Char := (s.map urlencodeChar).flatten

/-- The final download URL built by `download_file`
(`src/core/downloader.rs:188-191`): pick `&` when the decoded URL
already contains `?`, else `?`, and append `n=` followed by the
URL-encoded original filename
(`format!("{}{}n={}", decoded_url, separator, encoded_name)`). -/
def download_full_url (decodedUrl original : List Char) : List Char :=
  decodedUrl ++ (if decodedUrl.contains '?' then '&' else '?') :: 'n' :: '=' :: urlencode original

/-- Following the claim words only: the same construction but with a query
parameter literally called `name`, for comparison with
`download_full_url`. -/
def claimFullUrlNameParam (decodedUrl original : List Char) : List Char :=
  decodedUrl ++
    (if decodedUrl.contains '?' then '&' else '?') :: 'n' :: 'a' :: 'm' :: 'e' :: '=' ::
    urlencode original

/-- The character class `\s` of the `regex` crate (Unicode white space). -/
def isRegexWs (c : Char) : Bool :=
  [9, 10, 11, 12, 13, 32, 133, 160, 5760, 8192, 8193, 8194, 8195, 8196, 8197,
   8198, 8199, 8200, 8201, 8202, 8232, 8233, 8239, 8287, 12288].contains c.toNat

/-- The character class `\w` of the `regex` crate restricted to ASCII
(`[A-Za-z0-9_]`); the scraped script literals this normalizer is applied
to contain only ASCII keys, where the two classes agree. -/
def isRegexWordChar (c : Char) : Bool := c.isAlphanum || c = '_'

/-- Attempt to match the tail `(\s*)([}\]])` of the trailing-comma regex
`,(\s*)([}\]])` (`src/core/downloader.rs:52`) at the front of `l`:
maximal white-space run, then a closing brace or bracket.  (Greedy
matching is exact here because `\s` cannot match `}` or `]`.)  Returns
the closing character and the remainder after the match. -/
def matchTrailingClose (l : List Char) : Option (Char × List Char) :=
  match l.dropWhile isRegexWs with
  | c :: r => if c = '\x7d' ∨ c = ']' then some (c, r) else none
  | [] => none

/-- `trailing_comma_regex.replace_all(&json, "$2")`
(`src/core/downloader.rs:152-154`): left-to-right scan replacing each
non-overlapping match of `,(\s*)([}\]])` by its closing character
(the captured white space is dropped by the `$2` replacement), then
continuing after the match.  `fuel` bounds the recursion by the input
length; every step consumes at least one character. -/
def stripTCAux : Nat → List Char → List Char
  | 0, l => l
  | _ + 1, [] => []
  | fuel + 1, c :: rest =>
    if c = ',' then
      match matchTrailingClose rest with
      | some (close, rest2) => close :: stripTCAux fuel rest2
      | none => ',' :: stripTCAux fuel rest
    else c :: stripTCAux fuel rest

/-- The trailing-comma removal pass of `js_to_json`
(`src/core/downloader.rs:152-154`). -/
def stripTrailingCommas (l : List Char) : List Char := stripTCAux l.length l

/-- Attempt to match `(\s*)(\w+)(\s*):` at the front of `l` (the part of
the key regex `(?m)^(\s*)(\w+)(\s*):` after the line anchor,
`src/core/downloader.rs:55`).  Greedy runs are exact because `\s`,
`\w` and `:` are pairwise disjoint.  Returns the three captured groups
and the remainder after the `:`. -/
def tryKeyMatch (l : List Char) : Option (List Char × List Char × List Char × List Char) :=
  let r1 := l.dropWhile isRegexWs
  let word := r1.takeWhile isRegexWordChar
  if word = [] then none
  else
    let r2 := r1.dropWhile isRegexWordChar
    let r3 := r2.dropWhile isRegexWs
    match r3 with
    | ':' :: r4 => some (l.takeWhile isRegexWs, word, r2.takeWhile isRegexWs, r4)
    | _ => none

/-- `keys_regex.replace_all(&json, "$1\"$2\"$3:")`
(`src/core/downloader.rs:158-159`): scan left to right; at every
line-start position (`(?m)^`: the start of the string or just after a
newline) try the key match and, on success, emit the white space, the
key wrapped in quotes, the second white-space run and the colon, then
continue after the match (the character before that point is `:`, so
it is never a line start).  `fuel` bounds the recursion by the input
length. -/
def quoteKeysAux : Nat → Bool → List Char → List Char
  | 0, _, l => l
  | _ + 1, _, [] => []
  | fuel + 1, atStart, c :: rest =>
    if atStart then
      match tryKeyMatch (c :: rest) with
      | some (ws1, word, ws2, rest2) =>
        ws1 ++ '"' :: (word ++ '"' :: (ws2 ++ ':' :: quoteKeysAux fuel false rest2))
      | none => c :: quoteKeysAux fuel (c = '\n') rest
    else c :: quoteKeysAux fuel (c = '\n') rest

/-- The bare-key quoting pass of `js_to_json`
(`src/core/downloader.rs:158-159`). -/
def quoteKeys (l : List Char) : List Char := quoteKeysAux l.length true l

/-- `BunkrDownloader::js_to_json` (`src/core/downloader.rs:148-165`):
remove trailing commas, quote bare keys at line starts, then wrap the
whole text in square brackets unconditionally
(`format!("[{}]", json)`, `src/core/downloader.rs:162`). -/
def js_to_json (l : List Char) : List Char :=
  '[' :: (quoteKeys (stripTrailingCommas l) ++ [']'])

lemma xorWithKeyAux_involutive (key : List Nat) :
    ∀ (bytes : List Nat) (i : Nat), xorWithKeyAux key i (xorWithKeyAux key i bytes) = bytes := by
  intro bytes
  induction bytes with
  | nil => intro i; rfl
  | cons b rest ih =>
    intro i
    simp only [xorWithKeyAux, ih]
    rw [Nat.xor_assoc, Nat.xor_self, Nat.xor_zero]

/-- C8: link decryption is self-inverse — XOR-encrypting a byte sequence
with the key derived from any timestamp bucket and then decrypting
(XORing again) with the same key reproduces the original bytes. -/
theorem link_cipher_self_inverse (bytes : List Nat) (bucket : Int) :
    xorWithKey (xorWithKey bytes (keyBytes bucket)) (keyBytes bucket) = bytes :=
  xorWithKeyAux_involutive (keyBytes bucket) bytes 0

/-- C7: the planner takes the single-shot path exactly when the file size
is at most the session chunk size; in particular a file of size exactly
the chunk size is single-shot, and only a strictly larger file is
chunked (`src/core/uploader.rs:192-196`). -/
theorem upload_path_boundary (s c : Nat) :
    (s ≤ c → planUploadPath s c = UploadPath.single) ∧
    (c < s → planUploadPath s c = UploadPath.chunked) ∧
    planUploadPath c c = UploadPath.single := by
  refine ⟨fun h => ?_, fun h => ?_, ?_⟩
  · simp [planUploadPath, h]
  · simp only [planUploadPath]
    rw [if_neg (by omega)]
  · simp [planUploadPath]

theorem upload_path_boundary_witness :
    planUploadPath 5 5 = UploadPath.single ∧ planUploadPath 6 5 = UploadPath.chunked :=
  ⟨(upload_path_boundary 5 5).1 (by decide), (upload_path_boundary 6 5).2.1 (by decide)⟩

/-- C6: if an invocation of the wrapped operation returns an HTTP response
(`Ok`), `retry_with_backoff` returns that response to the caller
immediately and as-is — one attempt, no back-off sleeps — for every
response value, regardless of its status code; only `Err` outcomes
trigger a retry (`src/core/uploader.rs:34-45`). -/
theorem retry_returns_received_response {ε : Type} (f : Nat → Except ε HttpResponse)
    (r : HttpResponse) (maxRetries : Nat) (h : f 0 = Except.ok r) :
    retry_with_backoff f maxRetries = ⟨Except.ok r, 1, []⟩ := by
  simp [retry_with_backoff, retryLoop, h]

theorem retry_returns_received_response_witness :
    retry_with_backoff (fun _ => (Except.ok ⟨500, "Internal Server Error"⟩ :
        Except String HttpResponse)) 5 =
      ⟨Except.ok ⟨500, "Internal Server Error"⟩, 1, []⟩ :=
  retry_returns_received_response _ _ 5 rfl

/-- C10: for a path that does not exist, `upload_file` returns a normal
(non-error) result with no remote URL and exactly one failure record
whose message names the missing path, whose size is 0 (metadata of a
missing path fails, so `unwrap_or(0)` applies) and whose status code is
absent (`src/core/uploader.rs:135-154`). -/
theorem upload_file_missing_path (pe : String → Bool)
    (pp : String → Except String (List String)) (md : String → Except String Nat)
    (us uc : String → Nat → Except String (Option String × List FailedUploadInfo))
    (cs : Nat) (path : String) (err : String)
    (hpe : pe path = false) (hmd : md path = Except.error err) :
    uploadFile pe pp md us uc cs path =
      Except.ok (none, [{ path := path, error := "File not found: " ++ path,
                          file_size := 0, status_code := none }]) := by
  simp [uploadFile, hpe, hmd, Except.toOption]

theorem upload_file_missing_path_witness :
    uploadFile (fun _ => false) (fun p => Except.ok [p]) (fun _ => Except.error "No such file")
        (fun _ _ => Except.ok (none, [])) (fun _ _ => Except.ok (none, [])) 100 "gone.bin" =
      Except.ok (none, [{ path := "gone.bin", error := "File not found: " ++ "gone.bin",
                          file_size := 0, status_code := none }]) :=
  upload_file_missing_path _ _ _ _ _ 100 "gone.bin" "No such file" rfl rfl

/-- C9 counterexample: the query parameter appended by `download_file` is
called `n`, not `name` — on a concrete decoded URL and filename the URL
built by the code differs from the claim's `name`-parameter version,
and the code's URL is `...?n=a%20b.txt` (`src/core/downloader.rs:188-191`). -/
theorem download_url_name_param_counterexample :
    download_full_url ("https://cdn.example/file".toList) ("a b.txt".toList) ≠
      claimFullUrlNameParam ("https://cdn.example/file".toList) ("a b.txt".toList) ∧
    download_full_url ("https://cdn.example/file".toList) ("a b.txt".toList) =
      "https://cdn.example/file?n=a%20b.txt".toList := by
  constructor
  · decide
  · decide

/-- C9 amended: `download_file` appends an `n` query parameter carrying the
URL-encoded original filename, joined with `&` if the decoded URL
already contains `?` and with `?` otherwise
(`src/core/downloader.rs:188-191`). -/
theorem download_url_n_param (url orig : List Char) :
    (url.contains '?' = true →
        download_full_url url orig = url ++ '&' :: 'n' :: '=' :: urlencode orig) ∧
    (url.contains '?' = false →
        download_full_url url orig = url ++ '?' :: 'n' :: '=' :: urlencode orig) := by
  constructor <;> intro h <;> (simp only [download_full_url]; rw [h]; simp)

theorem download_url_n_param_witness :
    download_full_url ("https://cdn.example/f?x=1".toList) ("a.txt".toList) =
      "https://cdn.example/f?x=1".toList ++ '&' :: 'n' :: '=' :: urlencode ("a.txt".toList) ∧
    download_full_url ("https://cdn.example/file".toList) ("a b.txt".toList) =
      "https://cdn.example/file".toList ++ '?' :: 'n' :: '=' :: urlencode ("a b.txt".toList) :=
  ⟨(download_url_n_param _ _).1 (by decide), (download_url_n_param _ _).2 (by decide)⟩

/-- C5 counterexample: on the input `\x7bid:1,name:"a",\x7d` the
normalizer does not yield `\x7b"id":1,"name":"a"\x7d` (the keys are not
at line starts, so the key regex quotes nothing, and the result is
unconditionally wrapped in brackets), and the normalizer is not
idempotent even on its own (already-normalized) output: a second
application wraps it in another pair of brackets
(`src/core/downloader.rs:148-165`). -/
theorem js_to_json_counterexample :
    js_to_json ("\x7bid:1,name:\"a\",\x7d".toList) ≠
      "\x7b\"id\":1,\"name\":\"a\"\x7d".toList ∧
    js_to_json (js_to_json ("\x7bid:1,name:\"a\",\x7d".toList)) ≠
      js_to_json ("\x7bid:1,name:\"a\",\x7d".toList) := by
  constructor
  · decide
  · decide

/-- C5 amended: on the input `\x7bid:1,name:"a",\x7d` the normalizer
removes the trailing comma, quotes no key (bare keys are quoted only
when they stand at the start of a line) and wraps the result in
brackets, yielding `[\x7bid:1,name:"a"\x7d]`; with each key on its own
line the keys are quoted, e.g. the same object written across lines
yields `[\x7b"id":1,"name":"a"\x7d]` with the line breaks preserved
before the keys; a repeated application always adds one more pair of
enclosing brackets, so the full function is not idempotent
(`src/core/downloader.rs:148-165`). -/
theorem js_to_json_amended :
    js_to_json ("\x7bid:1,name:\"a\",\x7d".toList) = "[\x7bid:1,name:\"a\"\x7d]".toList ∧
    js_to_json ("\x7b\nid:1,\nname:\"a\",\n\x7d".toList) =
      "[\x7b\n\"id\":1,\n\"name\":\"a\"\x7d]".toList ∧
    js_to_json (js_to_json ("\x7bid:1,name:\"a\",\x7d".toList)) =
      "[[\x7bid:1,name:\"a\"\x7d]]".toList := by
  refine ⟨by decide, by decide, by decide⟩

/-- C3: an operation failing on every invocation is invoked exactly 6
times by `retry_with_backoff(_, 5)`, with sleeps of 1, 2, 4, 8 and 16
seconds between successive attempts, and the error of the last (6th)
attempt is surfaced; an operation failing on the first invocation and
succeeding on the second returns that success after exactly 1 retry
(2 invocations, one 1-second sleep) (`src/core/uploader.rs:28-48`). -/
theorem retry_executor_policy {ε ρ : Type} (f g : Nat → Except ε ρ)
    (hf : ∀ n, ∃ e, f n = Except.error e)
    (r : ρ) (e0 : ε) (hg0 : g 0 = Except.error e0) (hg1 : g 1 = Except.ok r) :
    (retry_with_backoff f 5).attempts = 6 ∧
    (retry_with_backoff f 5).delays = [1, 2, 4, 8, 16].map (· * oneSecondNanos) ∧
    (retry_with_backoff f 5).result = f 5 ∧
    (retry_with_backoff g 5).result = Except.ok r ∧
    (retry_with_backoff g 5).attempts = 2 ∧
    (retry_with_backoff g 5).delays = [1 * oneSecondNanos] := by
  obtain ⟨a0, h0⟩ := hf 0
  obtain ⟨a1, h1⟩ := hf 1
  obtain ⟨a2, h2⟩ := hf 2
  obtain ⟨a3, h3⟩ := hf 3
  obtain ⟨a4, h4⟩ := hf 4
  obtain ⟨a5, h5⟩ := hf 5
  refine ⟨?_, ?_, ?_, ?_, ?_, ?_⟩ <;>
    simp [retry_with_backoff, retryLoop, h0, h1, h2, h3, h4, h5, hg0, hg1,
      satMul2, oneSecondNanos, durationMaxNanos]

theorem retry_executor_policy_witness :
    (retry_with_backoff (fun _ => (Except.error "connection reset" :
        Except String HttpResponse)) 5).attempts = 6 ∧
    (retry_with_backoff (fun _ => (Except.error "connection reset" :
        Except String HttpResponse)) 5).delays = [1, 2, 4, 8, 16].map (· * oneSecondNanos) ∧
    (retry_with_backoff (fun _ => (Except.error "connection reset" :
        Except String HttpResponse)) 5).result =
      (fun _ => (Except.error "connection reset" : Except String HttpResponse)) 5 ∧
    (retry_with_backoff (fun n => if n = 0 then Except.error "connection reset"
        else (Except.ok ⟨200, "ok"⟩ : Except String HttpResponse)) 5).result =
      Except.ok ⟨200, "ok"⟩ ∧
    (retry_with_backoff (fun n => if n = 0 then Except.error "connection reset"
        else (Except.ok ⟨200, "ok"⟩ : Except String HttpResponse)) 5).attempts = 2 ∧
    (retry_with_backoff (fun n => if n = 0 then Except.error "connection reset"
        else (Except.ok ⟨200, "ok"⟩ : Except String HttpResponse)) 5).delays =
      [1 * oneSecondNanos] :=
  retry_executor_policy
    (fun _ => (Except.error "connection reset" : Except String HttpResponse))
    (fun n => if n = 0 then Except.error "connection reset"
      else (Except.ok ⟨200, "ok"⟩ : Except String HttpResponse))
    (fun _ => ⟨"connection reset", rfl⟩) ⟨200, "ok"⟩ "connection reset" rfl rfl

lemma xorWithKeyAux_length (key : List Nat) :
    ∀ (bytes : List Nat) (i : Nat), (xorWithKeyAux key i bytes).length = bytes.length := by
  intro bytes
  induction bytes with
  | nil => intro i; rfl
  | cons b rest ih => intro i; simp [xorWithKeyAux, ih]

lemma xorWithKeyAux_getD (key : List Nat) :
    ∀ (bytes : List Nat) (i0 i : Nat), i < bytes.length →
      (xorWithKeyAux key i0 bytes).getD i 0 =
        bytes.getD i 0 ^^^ key.getD ((i0 + i) % key.length) 0 := by
  intro bytes
  induction bytes with
  | nil => intro i0 i hi; simp at hi
  | cons b rest ih =>
    intro i0 i hi
    match i with
    | 0 => simp [xorWithKeyAux]
    | k + 1 =>
      simp only [xorWithKeyAux, List.getD_cons_succ]
      have hk : k < rest.length := by simpa using Nat.lt_of_succ_lt_succ hi
      have harg : i0 + 1 + k = i0 + (k + 1) := by omega
      rw [ih (i0 + 1) k hk, harg]

/-- C4: `decrypt_url` computes the bucket as `floor(timestamp / 3600)`,
forms the key as the ASCII bytes of `"SECRET_KEY_"` followed by the
bucket, base64-decodes the input (failing if it is not valid base64),
XORs every decoded byte with the key byte at `index mod key length`,
and decodes the XOR output as UTF-8, failing exactly when that output
is not valid UTF-8; for `timestamp = 7200` the bucket is `2` and the
key is `"SECRET_KEY_2"` (`src/core/downloader.rs:257-276`). -/
theorem decrypt_url_algorithm :
    bucketOf 7200 = 2 ∧
    keyString (bucketOf 7200) = "SECRET_KEY_2" ∧
    keyBytes (bucketOf 7200) = "SECRET_KEY_2".toList.map Char.toNat ∧
    (∀ ts, keyString (bucketOf ts) = "SECRET_KEY_" ++ toString (Int.fdiv ts 3600)) ∧
    (∀ url ts, base64Decode url = none → decrypt_url url ts = none) ∧
    (∀ url ts bytes, base64Decode url = some bytes →
        decrypt_url url ts = utf8Decode (xorWithKey bytes (keyBytes (Int.fdiv ts 3600))) ∧
        (decrypt_url url ts = none ↔
          utf8Decode (xorWithKey bytes (keyBytes (Int.fdiv ts 3600))) = none)) ∧
    (∀ bytes key, (xorWithKey bytes key).length = bytes.length ∧
        ∀ i, i < bytes.length →
          (xorWithKey bytes key).getD i 0 = bytes.getD i 0 ^^^ key.getD (i % key.length) 0) := by
  refine ⟨by decide, by decide, by decide, fun ts => rfl, ?_, ?_, ?_⟩
  · intro url ts h
    simp [decrypt_url, h]
  · intro url ts bytes h
    constructor
    · simp [decrypt_url, h, bucketOf]
    · simp [decrypt_url, h, bucketOf]
  · intro bytes key
    refine ⟨xorWithKeyAux_length key bytes 0, fun i hi => ?_⟩
    have := xorWithKeyAux_getD key bytes 0 i hi
    simpa using this

theorem decrypt_url_algorithm_witness :
    base64Decode ("OzE3IjZucGQ9dyYdMnohb3Q=".toList) =
      some [59, 49, 55, 34, 54, 110, 112, 100, 61, 119, 38, 29, 50, 122, 33, 111, 116] ∧
    decrypt_url ("OzE3IjZucGQ9dyYdMnohb3Q=".toList) 7200 =
      utf8Decode (xorWithKey
        [59, 49, 55, 34, 54, 110, 112, 100, 61, 119, 38, 29, 50, 122, 33, 111, 116]
        (keyBytes (Int.fdiv 7200 3600))) ∧
    decrypt_url ("OzE3IjZucGQ9dyYdMnohb3Q=".toList) 7200 =
      some ("https://x.y/a?b=1".toList.map Char.toNat) :=
  ⟨by decide,
   (decrypt_url_algorithm.2.2.2.2.2.1 ("OzE3IjZucGQ9dyYdMnohb3Q=".toList) 7200
     [59, 49, 55, 34, 54, 110, 112, 100, 61, 119, 38, 29, 50, 122, 33, 111, 116] (by decide)).1,
   by decide⟩

lemma uploadFiles_foldl_spec (perFile : String → Except String (Option String × List FailedUploadInfo)) :
    ∀ (files : List String) (acc : List String × List FailedUploadInfo),
      List.foldl
        (fun acc f =>
          match perFile f with
          | Except.error _ => acc
          | Except.ok (urlOpt, fails) =>
            ((match urlOpt with
              | some u => acc.1 ++ [u]
              | none => acc.1), acc.2 ++ fails))
        acc files =
      (acc.1 ++ files.filterMap (fun f =>
          match perFile f with
          | Except.ok (u, _) => u
          | Except.error _ => none),
       acc.2 ++ (files.map (fun f =>
          match perFile f with
          | Except.ok (_, fl) => fl
          | Except.error _ => [])).flatten) := by
  intro files
  induction files with
  | nil => intro acc; simp
  | cons f rest ih =>
    intro acc
    cases hpf : perFile f with
    | error e => simp [hpf, ih]
    | ok pr =>
      obtain ⟨urlOpt, fails⟩ := pr
      cases urlOpt <;> simp [hpf, ih]

/-- C1 counterexample: a batch of one existing file whose single upload
attempt fails yields a result in which that file contributes BOTH an
entry to the success list (the empty string, from
`Some(urls.join(","))` at `src/core/uploader.rs:204` being pushed at
`src/core/uploader.rs:545-546`) AND a `FailureRecord` — two outcomes
for one submitted file; and a batch of one file whose `upload_file`
call returns `Err` (dropped by the `if let Ok` at
`src/core/uploader.rs:544`) yields neither a URL nor a
`FailureRecord` — zero outcomes for one submitted file. -/
theorem upload_files_outcome_counterexample :
    uploadFiles
        (fun path => uploadFile (fun _ => true) (fun p => Except.ok [p]) (fun _ => Except.ok 10)
          (fun p sz => Except.ok (none,
            [{ path := p, error := "Upload request failed with status 500: oops",
               file_size := sz, status_code := some 500 }]))
          (fun _ _ => Except.ok (none, [])) 100 path)
        ["a.txt"] =
      ([""],
       [{ path := "a.txt", error := "Upload request failed with status 500: oops",
          file_size := 10, status_code := some 500 }]) ∧
    uploadFiles (fun _ => Except.error "preprocess failed") ["b.txt"] = ([], []) := by
  constructor
  · rfl
  · rfl

/-- C1 amended: `upload_files` aggregates per-file results as follows — a
file whose `upload_file` call returns `Err` contributes neither a URL
nor a failure record; every other file contributes all of its failure
records and, whenever `upload_file` produced a URL value, also that
value to the success list.  For every existing file whose sub-file loop
completes, `upload_file` always produces `Some` URL string — the
comma-joined URLs of its successful sub-uploads, possibly the empty
string — so a fully failed file can contribute to both lists
(`src/core/uploader.rs:182-205`, `src/core/uploader.rs:541-552`). -/
theorem upload_files_aggregation
    (perFile : String → Except String (Option String × List FailedUploadInfo))
    (files : List String) :
    uploadFiles perFile files =
      (files.filterMap (fun f =>
          match perFile f with
          | Except.ok (u, _) => u
          | Except.error _ => none),
       (files.map (fun f =>
          match perFile f with
          | Except.ok (_, fl) => fl
          | Except.error _ => [])).flatten) ∧
    (∀ (pe : String → Bool) (pp : String → Except String (List String))
        (md : String → Except String Nat)
        (us uc : String → Nat → Except String (Option String × List FailedUploadInfo))
        (cs : Nat) (path : String) (subs : List String) (urls : List String)
        (fails : List FailedUploadInfo),
      pe path = true → pp path = Except.ok subs →
      uploadFileLoop pe md us uc cs subs = Except.ok (urls, fails) →
      uploadFile pe pp md us uc cs path =
        Except.ok (some (String.intercalate "," urls), fails)) := by
  constructor
  · simpa using uploadFiles_foldl_spec perFile files ([], [])
  · intro pe pp md us uc cs path subs urls fails h1 h2 h3
    simp [uploadFile, h1, h2, h3]

theorem upload_files_aggregation_witness :
    uploadFile (fun _ => true) (fun p => Except.ok [p]) (fun _ => Except.ok 10)
        (fun _ _ => Except.ok (some "https://files.example/abc", []))
        (fun _ _ => Except.ok (none, [])) 100 "ok.txt" =
      Except.ok (some (String.intercalate "," ["https://files.example/abc"]), []) :=
  (upload_files_aggregation (fun _ => Except.ok (none, [])) []).2
    (fun _ => true) (fun p => Except.ok [p]) (fun _ => Except.ok 10)
    (fun _ _ => Except.ok (some "https://files.example/abc", []))
    (fun _ _ => Except.ok (none, [])) 100 "ok.txt" ["ok.txt"]
    ["https://files.example/abc"] [] rfl rfl (by decide)

lemma totalChunks_eq_div_succ (s c : Nat) (hc : 0 < c) (hs : 0 < s) :
    totalChunks s c = (s - 1) / c + 1 := by
  unfold totalChunks
  have h : s + c - 1 = (s - 1) + c := by omega
  rw [h, Nat.add_div_right _ hc]

lemma totalChunks_mul_ge (s c : Nat) (hc : 0 < c) (hs : 0 < s) :
    s ≤ totalChunks s c * c := by
  rw [totalChunks_eq_div_succ s c hc hs]
  have h := Nat.lt_div_mul_add (a := s - 1) hc
  have h2 : (s - 1) / c * c + c = ((s - 1) / c + 1) * c := by ring
  omega

lemma totalChunks_pred_mul_lt (s c : Nat) (hc : 0 < c) (hs : 0 < s) :
    (totalChunks s c - 1) * c < s := by
  rw [totalChunks_eq_div_succ s c hc hs]
  have h := Nat.div_mul_le_self (s - 1) c
  simp only [Nat.add_sub_cancel]
  omega

lemma chunkTasksAux_closed (s c : Nat) :
    ∀ (n i : Nat), (∀ j, j + 1 < n → (i + j + 1) * c ≤ s) →
      chunkTasksAux s c n i (i * c) =
        (List.range n).map
          (fun j => ChunkTask.mk (i + j) ((i + j) * c) (min c (s - (i + j) * c))) := by
  intro n
  induction n with
  | zero => intro i _; simp [chunkTasksAux]
  | succ m ih =>
    intro i hmid
    match m with
    | 0 =>
      have hr1 : List.range 1 = [0] := rfl
      simp [chunkTasksAux, hr1]
    | k + 1 =>
      have hfull : min c (s - i * c) = c := by
        have h0 := hmid 0 (by omega)
        have hx : (i + 0 + 1) * c = i * c + c := by ring
        omega
      have hpos : i * c + min c (s - i * c) = (i + 1) * c := by
        rw [hfull]; ring
      have hstep : chunkTasksAux s c (k + 1 + 1) i (i * c) =
          ChunkTask.mk i (i * c) (min c (s - i * c)) ::
            chunkTasksAux s c (k + 1) (i + 1) ((i + 1) * c) := by
        conv_lhs => rw [chunkTasksAux]
        rw [hpos]
      have hrec := ih (i + 1) (fun j hj => by
        have h2 := hmid (j + 1) (by omega)
        have hxx : (i + (j + 1) + 1) * c = (i + 1 + j + 1) * c := by ring
        omega)
      rw [hstep, hrec]
      conv_rhs => rw [List.range_succ_eq_map, List.map_cons, List.map_map]
      rw [List.cons_eq_cons]
      constructor
      · simp
      · apply List.map_congr_left
        intro j hj
        have h1 : i + 1 + j = i + (j + 1) := by omega
        simp [Function.comp, h1]

lemma chunkTasksAux_len_sum (s c : Nat) :
    ∀ (n i pos : Nat), s ≤ pos + n * c →
      ((chunkTasksAux s c n i pos).map ChunkTask.len).sum = s - pos := by
  intro n
  induction n with
  | zero =>
    intro i pos h
    simp only [Nat.zero_mul, Nat.add_zero] at h
    simp [chunkTasksAux]
    omega
  | succ m ih =>
    intro i pos h
    have hm : (m + 1) * c = m * c + c := by ring
    rw [hm] at h
    simp only [chunkTasksAux, List.map_cons, List.sum_cons]
    rw [ih (i + 1) (pos + min c (s - pos)) (by omega)]
    omega

/-- C2: for every file size `s` strictly greater than the chunk size
`c > 0`, `upload_chunked_file` emits exactly `⌈s / c⌉` chunk requests
(`totalChunks s c`, with the two inequalities certifying it is the
ceiling), with contiguous indices starting at 0, offsets `index * c`,
byte lengths summing to `s`, every chunk before the last of length
exactly `c`, and the last of length `s - (⌈s / c⌉ - 1) * c ≤ c`
(`src/core/uploader.rs:327-357`). -/
theorem chunked_upload_partition (s c : Nat) (hc : 0 < c) (hsc : c < s) :
    (chunkTasks s c).length = totalChunks s c ∧
    (totalChunks s c - 1) * c < s ∧ s ≤ totalChunks s c * c ∧
    (chunkTasks s c).map ChunkTask.index = List.range (totalChunks s c) ∧
    (chunkTasks s c).map ChunkTask.offset = (List.range (totalChunks s c)).map (· * c) ∧
    ((chunkTasks s c).map ChunkTask.len).sum = s ∧
    (∀ j, j + 1 < totalChunks s c → ((chunkTasks s c).map ChunkTask.len).getD j 0 = c) ∧
    ((chunkTasks s c).map ChunkTask.len).getD (totalChunks s c - 1) 0 =
      s - (totalChunks s c - 1) * c ∧
    s - (totalChunks s c - 1) * c ≤ c := by
  have hs : 0 < s := by omega
  have hceil1 := totalChunks_pred_mul_lt s c hc hs
  have hceil2 := totalChunks_mul_ge s c hc hs
  have htpos : 0 < totalChunks s c := by
    unfold totalChunks
    exact Nat.div_pos (by omega) hc
  have hexp : totalChunks s c * c = (totalChunks s c - 1) * c + c := by
    have h1 : totalChunks s c - 1 + 1 = totalChunks s c := by omega
    calc totalChunks s c * c = (totalChunks s c - 1 + 1) * c := by rw [h1]
      _ = (totalChunks s c - 1) * c + c := by ring
  have hmid : ∀ j, j + 1 < totalChunks s c → (j + 1) * c ≤ s := by
    intro j hj
    have h1 : (j + 1) * c ≤ (totalChunks s c - 1) * c :=
      Nat.mul_le_mul_right c (by omega)
    omega
  have hclosed := chunkTasksAux_closed s c (totalChunks s c) 0 (fun j hj => by
    have h2 := hmid j hj
    have h3 : (0 + j + 1) * c = (j + 1) * c := by ring
    omega)
  have hchunk : chunkTasks s c =
      (List.range (totalChunks s c)).map
        (fun j => ChunkTask.mk j (j * c) (min c (s - j * c))) := by
    unfold chunkTasks
    have h00 : chunkTasksAux s c (totalChunks s c) 0 0 =
        chunkTasksAux s c (totalChunks s c) 0 (0 * c) := by
      rw [Nat.zero_mul]
    rw [h00, hclosed]
    simp
  refine ⟨?_, hceil1, hceil2, ?_, ?_, ?_, ?_, ?_, by omega⟩
  · rw [hchunk]; simp
  · rw [hchunk, List.map_map]
    have hcomp : (ChunkTask.index ∘ fun j => ChunkTask.mk j (j * c) (min c (s - j * c))) =
        fun j => j := rfl
    rw [hcomp, List.map_id']
  · rw [hchunk, List.map_map]
    rfl
  · have hsum := chunkTasksAux_len_sum s c (totalChunks s c) 0 0 (by omega)
    unfold chunkTasks
    omega
  · intro j hj
    rw [hchunk]
    have hjlt : j < totalChunks s c := by omega
    have hfull := hmid j hj
    rw [List.map_map, List.getD_eq_getElem?_getD, List.getElem?_map,
      List.getElem?_range hjlt]
    simp only [Option.map_some', Option.getD_some, Function.comp]
    have hx : (j + 1) * c = j * c + c := by ring
    omega
  · rw [hchunk]
    have hlt : totalChunks s c - 1 < totalChunks s c := by omega
    rw [List.map_map, List.getD_eq_getElem?_getD, List.getElem?_map,
      List.getElem?_range hlt]
    simp only [Option.map_some', Option.getD_some, Function.comp]
    omega

theorem chunked_upload_partition_witness :
    0 < 5 ∧ 5 < 12 ∧
    (chunkTasks 12 5).length = totalChunks 12 5 ∧
    ((chunkTasks 12 5).map ChunkTask.len).sum = 12 ∧
    (chunkTasks 12 5).map ChunkTask.index = List.range (totalChunks 12 5) :=
  ⟨by decide, by decide,
   (chunked_upload_partition 12 5 (by decide) (by decide)).1,
   (chunked_upload_partition 12 5 (by decide) (by decide)).2.2.2.2.2.1,
   (chunked_upload_partition 12 5 (by decide) (by decide)).2.2.2.1⟩

end BunkrClient
